import Mathlib

set_option maxRecDepth 4000

/-!
Verification development for the CSV Explorer repository (src/tools.py,
src/agent.py).  The Python code is shallowly embedded: pandas DataFrames
become lists of rows of typed values, Python numbers become `Int`/`ℚ`
(floats are modelled as exact rationals plus the special values
inf, negative inf and nan), Python exceptions become `Except` values, and the regular
expressions of `QueryTool` are translated into structured matchers over
lists of characters.  Text handling models the ASCII fragment of Python
semantics (`str.lower`, `str.strip`, the regex classes \w, \s, \d):
non-ASCII case mapping and Unicode digits are outside the model.
-/

/-- A Python float, modelled exactly: a rational for finite values plus
the IEEE special values.  (Rounding of decimal literals to binary is not
modelled; literals keep their exact rational value.) -/
inductive PyFloat where
  | finite (q : ℚ)
  | inf
  | ninf
  | nan
deriving DecidableEq, Repr

/-- A Python runtime value as it occurs in this program: the result of
`_coerce_value` and the cells of a DataFrame.  `null` stands for a missing
value (None/NaN cell). -/
inductive PyValue where
  | int (n : Int)
  | float (f : PyFloat)
  | bool (b : Bool)
  | str (s : String)
  | null
deriving DecidableEq, Repr

/-- A Python exception, as far as this program distinguishes them. -/
inductive PyErr where
  | valueError (msg : String)
  | typeError (msg : String)
  | parserError (msg : String)
deriving DecidableEq, Repr

instance {ε α : Type} [DecidableEq ε] [DecidableEq α] : DecidableEq (Except ε α) := fun a b =>
  match a, b with
  | Except.ok x, Except.ok y =>
    if h : x = y then isTrue (h ▸ rfl) else isFalse (fun hh => h (Except.ok.inj hh))
  | Except.error x, Except.error y =>
    if h : x = y then isTrue (h ▸ rfl) else isFalse (fun hh => h (Except.error.inj hh))
  | Except.ok _, Except.error _ => isFalse (fun hh => Except.noConfusion hh)
  | Except.error _, Except.ok _ => isFalse (fun hh => Except.noConfusion hh)

/-- The single-quote character (written via its code point so that source
strings stay free of quote characters). -/
def sQuote : String := String.singleton (Char.ofNat 39)

/-- The double-quote character. -/
def dQuote : String := String.singleton (Char.ofNat 34)

/-- ASCII decimal digit, the model of the regex class \d and of the digits
accepted by Python `int()`/`float()`. -/
def isPyDigit (c : Char) : Bool := 48 ≤ c.toNat && c.toNat ≤ 57

/-- ASCII whitespace (space, \t, \n, \v, \f, \r): the model of the regex
class \s, of `str.strip()` and of the whitespace tolerated by `int()` and
`float()`. -/
def isSpaceChar (c : Char) : Bool :=
  c.toNat = 32 || (9 ≤ c.toNat && c.toNat ≤ 13)

/-- ASCII word character: the model of the regex class \w. -/
def isWordChar (c : Char) : Bool :=
  isPyDigit c || (97 ≤ c.toNat && c.toNat ≤ 122) || (65 ≤ c.toNat && c.toNat ≤ 90)
    || c.toNat = 95

/-- The character class `[\w\-\s]` used for column-name capture groups. -/
def isClassChar (c : Char) : Bool := isWordChar c || c.toNat = 45 || isSpaceChar c

/-- Model of `str.lower` on one character (ASCII case mapping). -/
def pyLowerChar (c : Char) : Char :=
  if 65 ≤ c.toNat ∧ c.toNat ≤ 90 then Char.ofNat (c.toNat + 32) else c

/-- Model of `str.upper` on one character (ASCII case mapping). -/
def pyUpperChar (c : Char) : Char :=
  if 97 ≤ c.toNat ∧ c.toNat ≤ 122 then Char.ofNat (c.toNat - 32) else c

/-- Model of Python `str.strip()` (no argument): drop whitespace from both
ends. -/
def pyStrip (l : List Char) : List Char :=
  ((l.dropWhile isSpaceChar).reverse.dropWhile isSpaceChar).reverse

/-- Quote characters stripped by `v.strip("'\"")` in `_coerce_value`. -/
def isQuoteChar (c : Char) : Bool := c.toNat = 39 || c.toNat = 34

/-- Model of `v.strip("'\"")`: drop single/double quotes from both ends. -/
def pyStripQuotes (l : List Char) : List Char :=
  ((l.dropWhile isQuoteChar).reverse.dropWhile isQuoteChar).reverse

/-- Numeric value of a list of ASCII digits (most significant first). -/
def natOfDigits (l : List Char) : Nat :=
  l.foldl (fun a c => a * 10 + (c.toNat - 48)) 0

/-- A nonempty all-digit chunk, as required by `\d+` and by the digit runs
of Python numeric literals. -/
def digitsVal (l : List Char) : Option Nat :=
  if l ≠ [] ∧ l.all isPyDigit then some (natOfDigits l) else none

/-- Model of Python `int(string)`: surrounding whitespace, an optional
sign, then a nonempty digit run.  (Underscore digit separators and
non-ASCII digits accepted by CPython are outside the model.) -/
def pyIntOfString (s : String) : Option Int :=
  match pyStrip s.data with
  | [] => none
  | c :: rest =>
    if c = Char.ofNat 43 then (digitsVal rest).map Int.ofNat
    else if c = Char.ofNat 45 then (digitsVal rest).map (fun n => -(n : Int))
    else (digitsVal (c :: rest)).map Int.ofNat

/-- Split a list at the first occurrence of character `c`; `none` when `c`
does not occur. -/
def splitAtChar (c : Char) : List Char → Option (List Char × List Char)
  | [] => none
  | x :: xs =>
    if x = c then some ([], xs)
    else (splitAtChar c xs).map (fun p => (x :: p.1, p.2))

/-- Exact rational value of a decimal mantissa `d1 . d2`. -/
def mantissaVal (d1 d2 : List Char) : ℚ :=
  (natOfDigits d1 : ℚ) + (natOfDigits d2 : ℚ) / ((10 : ℚ) ^ d2.length)

/-- Apply a signed decimal exponent to a rational. -/
def applyExp (q : ℚ) (e : Int) : ℚ :=
  if 0 ≤ e then q * (10 : ℚ) ^ e.toNat else q / (10 : ℚ) ^ (-e).toNat

/-- Parse an optional sign followed by a nonempty digit run (the exponent
part of a float literal). -/
def signedDigits (l : List Char) : Option Int :=
  match l with
  | [] => none
  | c :: rest =>
    if c = Char.ofNat 43 then (digitsVal rest).map Int.ofNat
    else if c = Char.ofNat 45 then (digitsVal rest).map (fun n => -(n : Int))
    else (digitsVal l).map Int.ofNat

/-- Parse the mantissa of a float literal: `digits`, `digits.digits`,
`.digits` or `digits.` with at least one digit overall. -/
def mantissaOfChars (l : List Char) : Option ℚ :=
  match splitAtChar (Char.ofNat 46) l with
  | none => (digitsVal l).map (fun n => (n : ℚ))
  | some (d1, d2) =>
    if d1.all isPyDigit ∧ d2.all isPyDigit ∧ (d1 ≠ [] ∨ d2 ≠ []) then
      some (mantissaVal d1 d2)
    else none

/-- Parse an unsigned float body (already lowercased): `inf`, `infinity`,
`nan`, or a decimal mantissa with optional `e`-exponent. -/
def floatBody (l : List Char) : Option PyFloat :=
  if l = "inf".data ∨ l = "infinity".data then some PyFloat.inf
  else if l = "nan".data then some PyFloat.nan
  else
    match splitAtChar (Char.ofNat 101) l with
    | none => (mantissaOfChars l).map PyFloat.finite
    | some (m, e) =>
      match mantissaOfChars m, signedDigits e with
      | some q, some ex => some (PyFloat.finite (applyExp q ex))
      | _, _ => none

/-- Negate a float value. -/
def pfNeg : PyFloat → PyFloat
  | PyFloat.finite q => PyFloat.finite (-q)
  | PyFloat.inf => PyFloat.ninf
  | PyFloat.ninf => PyFloat.inf
  | PyFloat.nan => PyFloat.nan

/-- Model of Python `float(string)`: surrounding whitespace, optional
sign, then (case-insensitively) `inf`/`infinity`/`nan` or a decimal
literal with optional exponent.  (Underscore separators and non-ASCII
digits are outside the model.) -/
def pyFloatOfString (s : String) : Option PyFloat :=
  match (pyStrip s.data).map pyLowerChar with
  | [] => none
  | c :: rest =>
    if c = Char.ofNat 43 then floatBody rest
    else if c = Char.ofNat 45 then (floatBody rest).map pfNeg
    else floatBody (c :: rest)

/-- Embedding of `QueryTool._coerce_value` (src/tools.py:84-91): try
`int(v)`, then `float(v)`, then the case-insensitive boolean keywords,
else fall back to the string with surrounding quote characters
stripped. -/
def _coerce_value (v : String) : PyValue :=
  match pyIntOfString v with
  | some n => PyValue.int n
  | none =>
    match pyFloatOfString v with
    | some f => PyValue.float f
    | none =>
      let lv := v.data.map pyLowerChar
      if lv = "true".data ∨ lv = "false".data then
        PyValue.bool (lv = "true".data)
      else
        PyValue.str (String.mk (pyStripQuotes v.data))

example : _coerce_value "42" = PyValue.int 42 := by decide
example : _coerce_value "3.14" = PyValue.float (PyFloat.finite (157/50)) := by with_unfolding_all decide
example : _coerce_value "TRUE" = PyValue.bool true := by decide
example : _coerce_value (sQuote ++ "abc" ++ sQuote) = PyValue.str "abc" := by decide
example : _coerce_value "-2.5e1" = PyValue.float (PyFloat.finite (-25)) := by with_unfolding_all decide
example : _coerce_value "+7" = PyValue.int 7 := by decide
example : _coerce_value "Inf" = PyValue.float PyFloat.inf := by decide
example : _coerce_value "hello" = PyValue.str "hello" := by decide

/-- Literal-prefix matcher: `matchPrefixL pre l` returns the remainder of
`l` after the literal `pre`, or `none` when `pre` is not a prefix. -/
def matchPrefixL : List Char → List Char → Option (List Char)
  | [], l => some l
  | _ :: _, [] => none
  | p :: ps, c :: cs => if c = p then matchPrefixL ps cs else none

/-- A shape of `QueryTool.SIMPLE_PATTERNS` (src/tools.py:69-77): either a
literal prefix followed by a greedy capture `([\w\-\s]+)$`, or an exact
literal (the `count rows` pattern, which has no group). -/
inductive SPat where
  | cap (pre : List Char)
  | lit (l : List Char)
deriving DecidableEq, Repr

/-- The aggregation kinds, mirroring the string tags of
`QueryTool.SIMPLE_PATTERNS` ("avg", "sum", "max", "min", "count_rows",
"unique"). -/
inductive Kind where
  | avg
  | sum
  | max
  | min
  | count_rows
  | unique
deriving DecidableEq, Repr

/-- Embedding of the dict `QueryTool.SIMPLE_PATTERNS` (src/tools.py:69-77)
in its insertion order, which is the iteration order of a Python dict. -/
def SIMPLE_PATTERNS : List (SPat × Kind) :=
  [ (SPat.cap "average of ".data, Kind.avg),
    (SPat.cap "mean of ".data, Kind.avg),
    (SPat.cap "sum of ".data, Kind.sum),
    (SPat.cap "max of ".data, Kind.max),
    (SPat.cap "min of ".data, Kind.min),
    (SPat.lit "count rows".data, Kind.count_rows),
    (SPat.cap "unique values of ".data, Kind.unique) ]

/-- Matcher for a pattern of the form `^<pre>([\w\-\s]+)$`: the whole
input is the literal prefix followed by a nonempty run of class
characters, which is the capture. -/
def matchCapAll (pre p : List Char) : Option (List Char) :=
  match matchPrefixL pre p with
  | none => none
  | some rest => if rest ≠ [] ∧ rest.all isClassChar then some rest else none

/-- Run one pattern of `SIMPLE_PATTERNS` against the whole input,
returning the capture of `([\w\-\s]+)` (the empty list for the
group-less `count rows` pattern). -/
def runSPat : SPat → List Char → Option (List Char)
  | SPat.cap pre, p => matchCapAll pre p
  | SPat.lit l, p => if p = l then some [] else none

/-- Operator alternation `(==|=|>=|<=|>|<|!=)` of
`QueryTool.FILTER_PATTERN` (src/tools.py:79), in the order the regex
tries it. -/
def OPS : List String := ["==", "=", ">=", "<=", ">", "<", "!="]

/-- Matcher for the tail `\s*and show top\s*(\d+)$` of `FILTER_PATTERN`:
skip whitespace, the literal, skip whitespace, then a nonempty digit run
reaching the end of input. -/
def matchShowTop (rem : List Char) : Option Nat :=
  match matchPrefixL "and show top".data (rem.dropWhile isSpaceChar) with
  | none => none
  | some r => digitsVal (r.dropWhile isSpaceChar)

/-- Backtracking search for the greedy group `([^\s]+)` of
`FILTER_PATTERN`: `run` is the maximal non-whitespace run and `tail` the
rest of the input; the group takes the longest nonempty prefix of `run`
(tried longest first, exactly like the regex engine) whose complement
still matches `\s*and show top\s*(\d+)$`. -/
def filterValSearch (run tail : List Char) : Nat → Option (List Char × Nat)
  | 0 => none
  | k + 1 =>
    match matchShowTop (run.drop (k + 1) ++ tail) with
    | some n => some (run.take (k + 1), n)
    | none => filterValSearch run tail k

/-- Resolve the greedy group `([^\s]+)` and the pattern tail on the input
after the operator and `\s*`: split off the maximal non-whitespace run
and backtrack from its full length. -/
def matchFilterVal (r2s : List Char) : Option (List Char × Nat) :=
  filterValSearch (r2s.takeWhile (fun c => !isSpaceChar c))
    (r2s.dropWhile (fun c => !isSpaceChar c))
    (r2s.takeWhile (fun c => !isSpaceChar c)).length

/-- The operator alternation `(==|=|>=|<=|>|<|!=)` of `FILTER_PATTERN`
together with everything after it.  The regex engine tries the
alternatives in the listed order and, when the rest of the pattern fails
after one alternative, backtracks into the alternation and tries the
next (so on `>= and show top 3` the `>=` branch fails to find a value
and the engine falls back to `>` with value `=`): each alternative is
therefore tried with the complete remainder `\s*([^\s]+)\s*and show
top\s*(\d+)$`, first full success wins. -/
def matchFilterRest (r1s : List Char) : Option (String × List Char × Nat) :=
  OPS.findSome? (fun o =>
    match matchPrefixL o.data r1s with
    | none => none
    | some r2 =>
      match matchFilterVal (r2.dropWhile isSpaceChar) with
      | none => none
      | some (val, n) => some (o, val, n))

/-- Embedding of `re.match(QueryTool.FILTER_PATTERN, p)`
(src/tools.py:79,104): `^filter ([\w\-\s]+)\s*(==|=|>=|<=|>|<|!=)\s*`
`([^\s]+)\s*and show top\s*(\d+)$`.  The greedy group `([\w\-\s]+)` is
the maximal class-character run (regex backtracking cannot shift the
position after it where the alternation is tried: operator characters
are neither class characters nor whitespace, so giving class characters
back to the engine never yields a new operator position), then `\s*`,
and the operator alternation with the rest of the pattern — including
the alternation backtracking — resolved by `matchFilterRest`.  Returns
the four captures (column, operator, value, N). -/
def matchFilter (p : List Char) : Option (List Char × String × String × Nat) :=
  match matchPrefixL "filter ".data p with
  | none => none
  | some rest0 =>
    if rest0.takeWhile isClassChar = [] then none
    else
      match matchFilterRest ((rest0.dropWhile isClassChar).dropWhile isSpaceChar) with
      | none => none
      | some (o, val, n) => some (rest0.takeWhile isClassChar, o, String.mk val, n)

/-- The classification of one prompt: the tagged query shape recognized
by `QueryTool.simple`. -/
inductive Recognized where
  | filter (col op val : String) (topn : Nat)
  | agg (kind : Kind) (col : String)
  | count_rows
  | unrecognized
deriving DecidableEq, Repr

/-- The pattern-matching stage of `QueryTool.simple` (src/tools.py:104,
122-127): try `FILTER_PATTERN` first, then the patterns of
`SIMPLE_PATTERNS` in dict order, first match wins; captured column names
get `str.strip()` applied (src/tools.py:107,127). -/
def classify (p : List Char) : Recognized :=
  match matchFilter p with
  | some (colRaw, op, val, n) => Recognized.filter (String.mk (pyStrip colRaw)) op val n
  | none =>
    match SIMPLE_PATTERNS.findSome? (fun pk => (runSPat pk.1 p).map (fun c => (pk.2, c))) with
    | some (k, c) =>
      if k = Kind.count_rows then Recognized.count_rows
      else Recognized.agg k (String.mk (pyStrip c))
    | none => Recognized.unrecognized

example : classify "mean of price".data = Recognized.agg Kind.avg "price" := by decide
example : classify "average of unit cost".data = Recognized.agg Kind.avg "unit cost" := by decide
example : classify "count rows".data = Recognized.count_rows := by decide
example : classify "unique values of city".data = Recognized.agg Kind.unique "city" := by decide
example : classify "filter price > 100 and show top 5".data
    = Recognized.filter "price" ">" "100" 5 := by decide
example : classify "filter price>=100and show top 12".data
    = Recognized.filter "price" ">=" "100" 12 := by decide
example : classify "filter a != x1 and show top 3".data
    = Recognized.filter "a" "!=" "x1" 3 := by decide
example : classify "sum of".data = Recognized.unrecognized := by decide
example : classify "mean of price!".data = Recognized.unrecognized := by decide
example : classify "filter a > and show top 5".data = Recognized.unrecognized := by decide
example : classify "filter a >= and show top 3".data
    = Recognized.filter "a" ">" "=" 3 := by decide
example : classify "filter a == and show top 5".data
    = Recognized.filter "a" "=" "=" 5 := by decide
example : classify "filter price <= and show top 2".data
    = Recognized.filter "price" "<" "=" 2 := by decide
example : classify "filter a != and show top 1".data = Recognized.unrecognized := by decide

/-- A pandas DataFrame, shallowly: named columns and row-aligned cells. -/
structure DataFrame where
  cols : List String
  rows : List (List PyValue)
deriving DecidableEq, Repr

/-- Index of the first occurrence of `a` (the length of the list when `a`
is absent); used to look a column up by name. -/
def firstIdx {α : Type} [DecidableEq α] (a : α) : List α → Nat
  | [] => 0
  | x :: xs => if x = a then 0 else firstIdx a xs + 1

/-- Model of `df[col]`: the cell of each row at the column's position. -/
def getCol (df : DataFrame) (c : String) : List PyValue :=
  df.rows.map (fun r => r.getD (firstIdx c df.cols) PyValue.null)

/-- Embedding of the `CSVTool` state (src/tools.py:10-14): the currently
loaded DataFrame (if any) and its provenance name. -/
structure CSVTool where
  df : Option DataFrame := none
  name : String := ""
deriving DecidableEq, Repr

/-- The confirmation message of `CSVTool.load` (src/tools.py:21). -/
def loadMsg (filename : String) (df : DataFrame) : String :=
  "Loaded " ++ sQuote ++ filename ++ sQuote ++ " with " ++ toString df.rows.length
    ++ " rows × " ++ toString df.cols.length ++ " columns."

/-- Embedding of `CSVTool.load` (src/tools.py:16-21).  The spec treats
byte parsing as a black box, so `pd.read_csv` is a parameter `parse`; in
the Python code the two state assignments happen only after `read_csv`
returns, so a parse exception leaves the state untouched — here: the
error branch returns `self` unchanged next to the propagated error. -/
def CSVTool.load (parse : List Nat → Except PyErr DataFrame) (self : CSVTool)
    (file_bytes : List Nat) (filename : String) : CSVTool × Except PyErr String :=
  match parse file_bytes with
  | Except.error e => (self, Except.error e)
  | Except.ok df => ({ df := some df, name := filename }, Except.ok (loadMsg filename df))

/-- Numeric view of a value: Python treats bools as the numbers 0/1 for
comparison purposes; strings and None are not numeric. -/
def asNum : PyValue → Option PyFloat
  | PyValue.int n => some (PyFloat.finite (n : ℚ))
  | PyValue.float f => some f
  | PyValue.bool b => some (PyFloat.finite (if b then 1 else 0))
  | _ => none

/-- Strict order on floats; `nan` is incomparable (every comparison with
it is false). -/
def pfLt : PyFloat → PyFloat → Bool
  | PyFloat.nan, _ => false
  | _, PyFloat.nan => false
  | PyFloat.finite a, PyFloat.finite b => a < b
  | PyFloat.finite _, PyFloat.inf => true
  | PyFloat.inf, _ => false
  | PyFloat.ninf, PyFloat.finite _ => true
  | PyFloat.ninf, PyFloat.inf => true
  | _, PyFloat.ninf => false

/-- Equality on floats; `nan` is not equal to anything, including
itself. -/
def pfEq : PyFloat → PyFloat → Bool
  | PyFloat.finite a, PyFloat.finite b => a = b
  | PyFloat.inf, PyFloat.inf => true
  | PyFloat.ninf, PyFloat.ninf => true
  | _, _ => false

/-- Lexicographic (code-point) order on character lists: Python string
comparison. -/
def lexLt : List Char → List Char → Bool
  | _, [] => false
  | [], _ :: _ => true
  | x :: xs, y :: ys => x < y || (x = y && lexLt xs ys)

/-- Python `==` between two values (total, never raises): numbers compare
numerically (bool counts as 0/1, nan equals nothing), strings compare as
strings, mixed number/string is plain `false`. -/
def pyEqB (a b : PyValue) : Bool :=
  match asNum a, asNum b with
  | some x, some y => pfEq x y
  | _, _ =>
    match a, b with
    | PyValue.str s, PyValue.str t => s = t
    | PyValue.null, PyValue.null => true
    | _, _ => false

/-- Python `a < b`: numeric for numbers, lexicographic for strings, and a
`TypeError` for mixed number/string or None operands — the model of the
element-wise ordered comparisons pandas performs in the filter branch. -/
def pyLtE (a b : PyValue) : Except PyErr Bool :=
  match asNum a, asNum b with
  | some x, some y => Except.ok (pfLt x y)
  | _, _ =>
    match a, b with
    | PyValue.str s, PyValue.str t => Except.ok (lexLt s.data t.data)
    | _, _ => Except.error (PyErr.typeError "unorderable types")

/-- Python `a <= b`, with the same error behaviour as `pyLtE`. -/
def pyLeE (a b : PyValue) : Except PyErr Bool :=
  match asNum a, asNum b with
  | some x, some y => Except.ok (pfLt x y || pfEq x y)
  | _, _ =>
    match a, b with
    | PyValue.str s, PyValue.str t => Except.ok (lexLt s.data t.data || s = t)
    | _, _ => Except.error (PyErr.typeError "unorderable types")

/-- Embedding of the `ops` dispatch table of the filter branch
(src/tools.py:112-117), applied to one cell `s` and the coerced scalar
`x`.  The final branch is unreachable: `classify` only produces operators
from `OPS`. -/
def applyOp (op : String) (s x : PyValue) : Except PyErr Bool :=
  if op = "==" ∨ op = "=" then Except.ok (pyEqB s x)
  else if op = "!=" then Except.ok (!pyEqB s x)
  else if op = ">" then pyLtE x s
  else if op = "<" then pyLtE s x
  else if op = ">=" then pyLeE x s
  else if op = "<=" then pyLeE s x
  else Except.error (PyErr.valueError "unknown operator")

/-- Modelled from the spec: `Series.astype(float)` (pandas, not part of
src/).  Per section 4.4 the cast maps each entry to floating point and a
non-numeric-coercible entry causes the cast to fail loudly, "treated as a
TypeError surfaced to the caller".  Numeric strings convert like Python
`float()`; a missing value becomes NaN. -/
def astypeFloat : PyValue → Except PyErr PyFloat
  | PyValue.int n => Except.ok (PyFloat.finite (n : ℚ))
  | PyValue.float f => Except.ok f
  | PyValue.bool b => Except.ok (PyFloat.finite (if b then 1 else 0))
  | PyValue.null => Except.ok PyFloat.nan
  | PyValue.str s =>
    match pyFloatOfString s with
    | some f => Except.ok f
    | none => Except.error (PyErr.typeError ("could not convert string to float: " ++ s))

/-- Element-by-element effectful map over `Except`, stopping at the
first failure — the order in which pandas walks a column. -/
def mapME {α β : Type} (f : α → Except PyErr β) : List α → Except PyErr (List β)
  | [] => Except.ok []
  | x :: xs =>
    match f x with
    | Except.error e => Except.error e
    | Except.ok y =>
      match mapME f xs with
      | Except.error e => Except.error e
      | Except.ok ys => Except.ok (y :: ys)

/-- Cast a whole column, stopping at the first failing entry. -/
def astypeCol (l : List PyValue) : Except PyErr (List PyFloat) := mapME astypeFloat l

/-- IEEE-style float addition on the model. -/
def pfAdd : PyFloat → PyFloat → PyFloat
  | PyFloat.nan, _ => PyFloat.nan
  | _, PyFloat.nan => PyFloat.nan
  | PyFloat.inf, PyFloat.ninf => PyFloat.nan
  | PyFloat.ninf, PyFloat.inf => PyFloat.nan
  | PyFloat.inf, _ => PyFloat.inf
  | _, PyFloat.inf => PyFloat.inf
  | PyFloat.ninf, _ => PyFloat.ninf
  | _, PyFloat.ninf => PyFloat.ninf
  | PyFloat.finite a, PyFloat.finite b => PyFloat.finite (a + b)

/-- Sum of a list of floats. -/
def pfSum (l : List PyFloat) : PyFloat := l.foldl pfAdd (PyFloat.finite 0)

/-- Division of a float by a row count. -/
def pfDivNat (f : PyFloat) (n : Nat) : PyFloat :=
  match f with
  | PyFloat.finite q => if n = 0 then PyFloat.nan else PyFloat.finite (q / (n : ℚ))
  | PyFloat.inf => PyFloat.inf
  | PyFloat.ninf => PyFloat.ninf
  | PyFloat.nan => PyFloat.nan

/-- Modelled from the spec: pandas `Series.mean()` (not part of src/):
NaN entries are skipped (`skipna` default) and the mean of nothing is
NaN. -/
def pandasMean (xs : List PyFloat) : PyFloat :=
  let fin := xs.filter (fun f => f ≠ PyFloat.nan)
  if fin.length = 0 then PyFloat.nan else pfDivNat (pfSum fin) fin.length

/-- Modelled from the spec: pandas `Series.sum()` (not part of src/):
NaN entries are skipped and the empty sum is 0.0. -/
def pandasSum (xs : List PyFloat) : PyFloat := pfSum (xs.filter (fun f => f ≠ PyFloat.nan))

/-- A missing cell: None or NaN — what `dropna`/`skipna` remove. -/
def pyIsNull : PyValue → Bool
  | PyValue.null => true
  | PyValue.float PyFloat.nan => true
  | _ => false

/-- Modelled from the spec: pandas `Series.max()` (not part of src/):
natural ordering of the column's native type, nulls excluded (section
4.4); an all-null column yields NaN. -/
def pandasMax (l : List PyValue) : Except PyErr PyValue :=
  match l.filter (fun v => !pyIsNull v) with
  | [] => Except.ok (PyValue.float PyFloat.nan)
  | v :: vs => vs.foldlM (fun acc w => (pyLtE acc w).map (fun b => if b then w else acc)) v

/-- Modelled from the spec: pandas `Series.min()`, dually to
`pandasMax`. -/
def pandasMin (l : List PyValue) : Except PyErr PyValue :=
  match l.filter (fun v => !pyIsNull v) with
  | [] => Except.ok (PyValue.float PyFloat.nan)
  | v :: vs => vs.foldlM (fun acc w => (pyLtE w acc).map (fun b => if b then w else acc)) v

/-- Scan keeping the elements not yet seen, the way pandas `unique`
walks the column with a hash set of seen values. -/
def dedupFirstAux {α : Type} [DecidableEq α] (seen : List α) : List α → List α
  | [] => []
  | x :: xs => if x ∈ seen then dedupFirstAux seen xs else x :: dedupFirstAux (x :: seen) xs

/-- Keep the first occurrence of every element, in order of first
appearance. -/
def dedupFirst {α : Type} [DecidableEq α] (l : List α) : List α := dedupFirstAux [] l

/-- Modelled from the spec: `df[col].dropna().unique().tolist()`
(src/tools.py:139; `dropna`/`unique` are pandas, not part of src/):
drop missing values, keep distinct values in first-occurrence order.
Equality is value equality; a parsed CSV column is homogeneously typed,
so this agrees with pandas hashing. -/
def pandasUnique (l : List PyValue) : List PyValue :=
  dedupFirst (l.filter (fun v => !pyIsNull v))

/-- The user-facing message of src/tools.py:109,129. -/
def colNotFound (col : String) : String :=
  "Column " ++ sQuote ++ col ++ sQuote ++ " not found."

/-- The fixed instructional string of src/tools.py:141. -/
def unrecognizedMsg : String :=
  "Unrecognized pattern. Try: " ++ sQuote ++ "average of <col>" ++ sQuote ++ ", "
    ++ sQuote ++ "sum of <col>" ++ sQuote ++ ", " ++ sQuote ++ "count rows" ++ sQuote
    ++ ", " ++ sQuote ++ "unique values of <col>" ++ sQuote ++ ", or " ++ sQuote
    ++ "filter <col> > 10 and show top 5" ++ sQuote ++ ". To use SQL, start with "
    ++ sQuote ++ "sql:" ++ sQuote ++ "."

/-- The dynamically-typed result of `QueryTool.simple`, as a tagged
variant: a user-facing message string, a result table (`df[mask].head`),
an int (`count rows`), a float (mean/sum), a native scalar (max/min) or a
list of native values (unique). -/
inductive Result where
  | message (s : String)
  | table (rows : List (List PyValue))
  | int (n : Int)
  | float (f : PyFloat)
  | value (v : PyValue)
  | values (l : List PyValue)
deriving DecidableEq, Repr

/-- Embedding of `QueryTool.simple` (src/tools.py:98-141): guard on a
loaded DataFrame, lowercase the stripped prompt, classify it, then
execute the recognized shape.  The `Kind.count_rows` arm inside `agg` is
unreachable (`classify` emits `Recognized.count_rows` for it) and mirrors
the code's early `count_rows` test. -/
def simple (self : CSVTool) (prompt : String) : Except PyErr Result :=
  match self.df with
  | none => Except.error (PyErr.valueError "No CSV loaded.")
  | some df =>
    let p := (pyStrip prompt.data).map pyLowerChar
    match classify p with
    | Recognized.filter col op val topn =>
      if col ∈ df.cols then
        match mapME (fun cell => applyOp op cell (_coerce_value val)) (getCol df col) with
        | Except.error e => Except.error e
        | Except.ok mask =>
          Except.ok (Result.table ((((df.rows.zip mask).filter (fun rm => rm.2)).map
            (fun rm => rm.1)).take topn))
      else Except.ok (Result.message (colNotFound col))
    | Recognized.agg kind col =>
      if col ∈ df.cols then
        match kind with
        | Kind.avg => (astypeCol (getCol df col)).map (fun xs => Result.float (pandasMean xs))
        | Kind.sum => (astypeCol (getCol df col)).map (fun xs => Result.float (pandasSum xs))
        | Kind.max => (pandasMax (getCol df col)).map Result.value
        | Kind.min => (pandasMin (getCol df col)).map Result.value
        | Kind.unique => Except.ok (Result.values (pandasUnique (getCol df col)))
        | Kind.count_rows => Except.ok (Result.int df.rows.length)
      else Except.ok (Result.message (colNotFound col))
    | Recognized.count_rows => Except.ok (Result.int df.rows.length)
    | Recognized.unrecognized => Except.ok (Result.message unrecognizedMsg)

/-- One formatted memory entry of `CSVAgent._remember`
(src/agent.py:16). -/
def fmtRecord (role content : String) : String :=
  String.mk (role.data.map pyUpperChar) ++ ": " ++ content

/-- Embedding of `CSVAgent._remember` (src/agent.py:15-18): append the
formatted entry, then truncate to the last 50 entries
(`self.memory[-50:]`) when the length exceeds 50. -/
def _remember (memory : List String) (role content : String) : List String :=
  let m := memory ++ [fmtRecord role content]
  if m.length > 50 then m.drop (m.length - 50) else m

/-- Embedding of `CSVAgent.ask` (src/agent.py:41-48), result path only
(its two `_remember` side effects are modelled separately): if the
stripped, lowercased text starts with `sql:`, the original stripped text
after the prefix goes to the relational engine (pandasql — external, a
parameter here); otherwise the text goes to `QueryTool.simple`. -/
def ask (sqlExec : String → Except PyErr Result) (self : CSVTool) (text : String) :
    Except PyErr Result :=
  let t := pyStrip text.data
  if (matchPrefixL "sql:".data (t.map pyLowerChar)).isSome then
    sqlExec (String.mk (pyStrip (t.drop 4)))
  else simple self text

theorem charToNat_ofNat {n : Nat} (h : n < 55296) : (Char.ofNat n).toNat = n := by
  have hv : n.isValidChar := Or.inl h
  simp [Char.ofNat, hv, Char.ofNatAux, Char.toNat, UInt32.toNat, BitVec.toNat_ofNatLt]

theorem pyLowerChar_idem (c : Char) : pyLowerChar (pyLowerChar c) = pyLowerChar c := by
  unfold pyLowerChar
  by_cases h : 65 ≤ c.toNat ∧ c.toNat ≤ 90
  · rw [if_pos h, if_neg]
    rw [charToNat_ofNat (by omega)]
    omega
  · rw [if_neg h, if_neg h]

theorem lower_upper_char (c : Char) : pyLowerChar (pyUpperChar c) = pyLowerChar c := by
  unfold pyUpperChar
  by_cases h : 97 ≤ c.toNat ∧ c.toNat ≤ 122
  · rw [if_pos h]
    unfold pyLowerChar
    have ht : (Char.ofNat (c.toNat - 32)).toNat = c.toNat - 32 := charToNat_ofNat (by omega)
    rw [if_pos (by rw [ht]; omega), if_neg (by omega), ht,
      Nat.sub_add_cancel (by omega), Char.ofNat_toNat]
  · rw [if_neg h]

theorem isSpaceChar_upper (c : Char) : isSpaceChar (pyUpperChar c) = isSpaceChar c := by
  unfold pyUpperChar
  by_cases h : 97 ≤ c.toNat ∧ c.toNat ≤ 122
  · rw [if_pos h, Bool.eq_iff_iff]
    simp only [isSpaceChar, Bool.or_eq_true, Bool.and_eq_true, decide_eq_true_eq,
      charToNat_ofNat (show c.toNat - 32 < 55296 by omega)]
    omega
  · rw [if_neg h]

theorem pyStrip_map_upper (l : List Char) :
    pyStrip (l.map pyUpperChar) = (pyStrip l).map pyUpperChar := by
  have hp : (isSpaceChar ∘ pyUpperChar) = isSpaceChar := funext isSpaceChar_upper
  unfold pyStrip
  rw [List.dropWhile_map, hp, ← List.map_reverse, List.dropWhile_map, hp, ← List.map_reverse]

theorem map_lower_map_upper (l : List Char) :
    (l.map pyUpperChar).map pyLowerChar = l.map pyLowerChar := by
  rw [List.map_map]
  exact congrArg (fun f => l.map f) (funext lower_upper_char)

/-- Shared concrete test store: a three-row table with a numeric `price`
column and a string `city` column. -/
def dfA : DataFrame :=
  ⟨["price", "city"],
   [[PyValue.int 10, PyValue.str "a"],
    [PyValue.int 20, PyValue.str "b"],
    [PyValue.int 30, PyValue.str "a"]]⟩

/-- Shared concrete store holding `dfA`. -/
def stA : CSVTool := ⟨some dfA, "a.csv"⟩

/-- Claim C1: `_coerce_value` is total (it is a plain function into
`PyValue`, no exception path exists) and follows the fixed order:
integer attempt, then float attempt, then case-insensitive boolean
keyword match on true/false, else string fallback with surrounding
single/double quotes stripped — together with the spec's four concrete
examples. -/
theorem c1_coerce_order :
    (∀ t : String,
      (∀ n, pyIntOfString t = some n → _coerce_value t = PyValue.int n) ∧
      (∀ f, pyIntOfString t = none → pyFloatOfString t = some f →
        _coerce_value t = PyValue.float f) ∧
      (pyIntOfString t = none → pyFloatOfString t = none →
        (t.data.map pyLowerChar = "true".data ∨ t.data.map pyLowerChar = "false".data) →
        _coerce_value t = PyValue.bool (t.data.map pyLowerChar = "true".data)) ∧
      (pyIntOfString t = none → pyFloatOfString t = none →
        ¬(t.data.map pyLowerChar = "true".data ∨ t.data.map pyLowerChar = "false".data) →
        _coerce_value t = PyValue.str (String.mk (pyStripQuotes t.data)))) ∧
    _coerce_value "42" = PyValue.int 42 ∧
    _coerce_value "3.14" = PyValue.float (PyFloat.finite (157 / 50)) ∧
    _coerce_value "TRUE" = PyValue.bool true ∧
    _coerce_value (sQuote ++ "abc" ++ sQuote) = PyValue.str "abc" := by
  refine ⟨fun t => ⟨?_, ?_, ?_, ?_⟩, by decide, by with_unfolding_all decide, by decide, by decide⟩
  · intro n h
    simp [_coerce_value, h]
  · intro f h1 h2
    simp [_coerce_value, h1, h2]
  · intro h1 h2 h3
    simp only [_coerce_value, h1, h2]
    rw [if_pos h3]
  · intro h1 h2 h3
    simp only [_coerce_value, h1, h2]
    rw [if_neg h3]

theorem c1_coerce_order_witness :
    pyIntOfString "False" = none ∧ pyFloatOfString "False" = none ∧
    _coerce_value "False" = PyValue.bool false := by
  refine ⟨by decide, by decide, ?_⟩
  exact (((c1_coerce_order.1 "False").2.2.1) (by decide) (by decide) (by decide)).trans (by decide)

/-- Claim C5: for aggregate, unique-values and filter queries whose
extracted column is not in the loaded dataset, `simple` returns the
message Column <name> not found. as an ordinary `Except.ok` result, not
an error. -/
theorem c5_column_not_found (st : CSVTool) (df : DataFrame) (prompt : String)
    (hdf : st.df = some df) :
    (∀ col op val n,
      classify ((pyStrip prompt.data).map pyLowerChar) = Recognized.filter col op val n →
      col ∉ df.cols →
      simple st prompt = Except.ok (Result.message (colNotFound col))) ∧
    (∀ k col,
      classify ((pyStrip prompt.data).map pyLowerChar) = Recognized.agg k col →
      col ∉ df.cols →
      simple st prompt = Except.ok (Result.message (colNotFound col))) := by
  constructor
  · intro col op val n hcls hcol
    simp only [simple, hdf, hcls]
    rw [if_neg hcol]
  · intro k col hcls hcol
    simp only [simple, hdf, hcls]
    rw [if_neg hcol]

theorem c5_column_not_found_witness :
    simple stA "mean of weight" = Except.ok (Result.message (colNotFound "weight")) ∧
    simple stA "filter qty > 1 and show top 2" = Except.ok (Result.message (colNotFound "qty")) :=
  ⟨(c5_column_not_found stA dfA "mean of weight" rfl).2 Kind.avg "weight" (by decide) (by decide),
   (c5_column_not_found stA dfA "filter qty > 1 and show top 2" rfl).1 "qty" ">" "1" 2
     (by decide) (by decide)⟩

/-- Claim C7: input that starts with no sql prefix and matches no shape
gets the fixed instructional message as a successful result. -/
theorem c7_unrecognized_instructional (sqlExec : String → Except PyErr Result)
    (st : CSVTool) (df : DataFrame) (text : String)
    (hdf : st.df = some df)
    (hsql : matchPrefixL "sql:".data ((pyStrip text.data).map pyLowerChar) = none)
    (hcls : classify ((pyStrip text.data).map pyLowerChar) = Recognized.unrecognized) :
    ask sqlExec st text = Except.ok (Result.message unrecognizedMsg) := by
  simp only [ask, hsql, Option.isSome_none, Bool.false_eq_true, if_false]
  simp only [simple, hdf, hcls]

theorem c7_unrecognized_instructional_witness :
    ask (fun q => Except.ok (Result.message q)) stA "tell me about the data"
      = Except.ok (Result.message unrecognizedMsg) :=
  c7_unrecognized_instructional _ stA dfA "tell me about the data" rfl (by decide) (by decide)

/-- Claim C9: load is atomic — the state assignments of `CSVTool.load`
happen only after parsing succeeds, so a parse failure propagates the
error and leaves the previous dataset and name untouched, while success
fully replaces both. -/
theorem c9_load_atomic (parse : List Nat → Except PyErr DataFrame) (st : CSVTool)
    (file_bytes : List Nat) (filename : String) :
    (∀ e, parse file_bytes = Except.error e →
      CSVTool.load parse st file_bytes filename = (st, Except.error e)) ∧
    (∀ df, parse file_bytes = Except.ok df →
      CSVTool.load parse st file_bytes filename =
        ({ df := some df, name := filename }, Except.ok (loadMsg filename df))) := by
  constructor
  · intro e h
    simp [CSVTool.load, h]
  · intro df h
    simp [CSVTool.load, h]

/-- A second concrete table, the replacement dataset of the load
witness. -/
def dfB : DataFrame := ⟨["x"], [[PyValue.int 1]]⟩

theorem c9_load_atomic_witness :
    CSVTool.load (fun _ => Except.error (PyErr.parserError "bad bytes")) stA [0, 1] "new.csv"
      = (stA, Except.error (PyErr.parserError "bad bytes")) ∧
    CSVTool.load (fun _ => Except.ok dfB) stA [0, 1] "new.csv"
      = ({ df := some dfB, name := "new.csv" }, Except.ok (loadMsg "new.csv" dfB)) :=
  ⟨(c9_load_atomic _ stA _ _).1 _ rfl, (c9_load_atomic _ stA _ _).2 dfB rfl⟩

/-- The last `n` entries of a list (all of it when shorter): the model of
the Python slice `l[-n:]`. -/
def lastN {α : Type} (n : Nat) (l : List α) : List α := l.drop (l.length - n)

theorem lastN_of_le {α : Type} {n : Nat} {l : List α} (h : l.length ≤ n) : lastN n l = l := by
  unfold lastN
  rw [Nat.sub_eq_zero_of_le h, List.drop_zero]

theorem lastN_append_lastN {α : Type} (n : Nat) (xs ys : List α) :
    lastN n (lastN n xs ++ ys) = lastN n (xs ++ ys) := by
  unfold lastN
  rw [← List.drop_append_of_le_length (Nat.sub_le _ _), List.drop_drop]
  congr 1
  simp only [List.length_drop, List.length_append]
  omega

theorem remember_foldl (calls : List (String × String)) :
    ∀ mem : List String, mem.length ≤ 50 →
      List.foldl (fun m rc => _remember m rc.1 rc.2) mem calls
        = lastN 50 (mem ++ calls.map (fun rc => fmtRecord rc.1 rc.2)) := by
  induction calls with
  | nil =>
    intro mem h
    simp [lastN_of_le h]
  | cons c cs ih =>
    intro mem h
    rw [List.foldl_cons, List.map_cons]
    have hm : _remember mem c.1 c.2 = lastN 50 (mem ++ [fmtRecord c.1 c.2]) := by
      unfold _remember lastN
      by_cases hlen : (mem ++ [fmtRecord c.1 c.2]).length > 50
      · rw [if_pos hlen]
      · rw [if_neg hlen, Nat.sub_eq_zero_of_le (by omega), List.drop_zero]
    have hlen2 : (_remember mem c.1 c.2).length ≤ 50 := by
      rw [hm]
      unfold lastN
      simp only [List.length_drop]
      omega
    rw [ih _ hlen2, hm, lastN_append_lastN]
    congr 1
    simp [List.append_assoc]

/-- Claim C8: the interaction log is capped at 50 with FIFO eviction —
any 60 record calls starting from the empty log leave exactly the last
50 formatted entries in order, and a single record call appends at the
end and drops only the oldest entries (a front `drop`). -/
theorem c8_memory_cap :
    (∀ calls : List (String × String), calls.length = 60 →
      List.foldl (fun m rc => _remember m rc.1 rc.2) [] calls
          = (calls.map (fun rc => fmtRecord rc.1 rc.2)).drop 10 ∧
        (List.foldl (fun m rc => _remember m rc.1 rc.2) [] calls).length = 50) ∧
    (∀ (mem : List String) (role content : String),
      _remember mem role content
        = (mem ++ [fmtRecord role content]).drop (mem.length + 1 - 50)) := by
  constructor
  · intro calls hlen
    have h := remember_foldl calls [] (by simp)
    constructor
    · rw [h]
      unfold lastN
      simp [hlen]
    · rw [h]
      unfold lastN
      simp [hlen]
  · intro mem role content
    unfold _remember
    by_cases hlen : (mem ++ [fmtRecord role content]).length > 50
    · rw [if_pos hlen]
      congr 1
      simp
    · rw [if_neg hlen]
      rw [Nat.sub_eq_zero_of_le (by simp at hlen ⊢; omega), List.drop_zero]

theorem c8_memory_cap_witness :
    (List.foldl (fun m rc => _remember m rc.1 rc.2) [] (List.replicate 60 ("user", "hi"))
        = ((List.replicate 60 ("user", "hi")).map (fun rc => fmtRecord rc.1 rc.2)).drop 10) ∧
    ((List.foldl (fun m rc => _remember m rc.1 rc.2) [] (List.replicate 60 ("user", "hi"))).length
        = 50) ∧
    (_remember [] "agent" "ok"
        = ([] ++ [fmtRecord "agent" "ok"]).drop (([] : List String).length + 1 - 50)) :=
  ⟨(c8_memory_cap.1 _ (by decide)).1, (c8_memory_cap.1 _ (by decide)).2,
    c8_memory_cap.2 [] "agent" "ok"⟩

theorem dedupFirstAux_mem {α : Type} [DecidableEq α] (l : List α) :
    ∀ (seen : List α) (a : α), a ∈ dedupFirstAux seen l ↔ a ∈ l ∧ a ∉ seen := by
  induction l with
  | nil =>
    intro seen a
    simp [dedupFirstAux]
  | cons x xs ih =>
    intro seen a
    unfold dedupFirstAux
    by_cases hx : x ∈ seen
    · rw [if_pos hx, ih]
      constructor
      · rintro ⟨ha, hs⟩
        exact ⟨List.mem_cons_of_mem _ ha, hs⟩
      · rintro ⟨ha, hs⟩
        rcases List.mem_cons.mp ha with h | h
        · exact absurd (h ▸ hx) hs
        · exact ⟨h, hs⟩
    · rw [if_neg hx]
      simp only [List.mem_cons, ih]
      constructor
      · rintro (h | ⟨ha, hs⟩)
        · exact ⟨Or.inl h, h ▸ hx⟩
        · exact ⟨Or.inr ha, fun hsn => hs (Or.inr hsn)⟩
      · rintro ⟨h | h, hs⟩
        · exact Or.inl h
        · by_cases hax : a = x
          · exact Or.inl hax
          · exact Or.inr ⟨h, fun hm => hm.elim hax hs⟩

theorem dedupFirstAux_sublist {α : Type} [DecidableEq α] (l : List α) :
    ∀ seen : List α, List.Sublist (dedupFirstAux seen l) l := by
  induction l with
  | nil =>
    intro seen
    simp [dedupFirstAux]
  | cons x xs ih =>
    intro seen
    unfold dedupFirstAux
    by_cases hx : x ∈ seen
    · rw [if_pos hx]
      exact (ih seen).trans (List.sublist_cons_self x xs)
    · rw [if_neg hx]
      exact (ih (x :: seen)).cons₂ x

theorem dedupFirstAux_nodup {α : Type} [DecidableEq α] (l : List α) :
    ∀ seen : List α, (dedupFirstAux seen l).Nodup := by
  induction l with
  | nil =>
    intro seen
    simp [dedupFirstAux]
  | cons x xs ih =>
    intro seen
    unfold dedupFirstAux
    by_cases hx : x ∈ seen
    · rw [if_pos hx]
      exact ih seen
    · rw [if_neg hx]
      refine List.nodup_cons.mpr ⟨?_, ih (x :: seen)⟩
      intro hm
      exact ((dedupFirstAux_mem xs (x :: seen) x).mp hm).2 (List.mem_cons_self x seen)

theorem firstIdx_cons_self {α : Type} [DecidableEq α] (x : α) (xs : List α) :
    firstIdx x (x :: xs) = 0 := by
  simp [firstIdx]

theorem firstIdx_cons_ne {α : Type} [DecidableEq α] {x a : α} (xs : List α) (h : x ≠ a) :
    firstIdx a (x :: xs) = firstIdx a xs + 1 := by
  simp [firstIdx, h]

theorem firstIdx_filter_lt {α : Type} [DecidableEq α] (p : α → Bool) :
    ∀ (l : List α) (a b : α), a ∈ l.filter p → b ∈ l.filter p →
      firstIdx a (l.filter p) < firstIdx b (l.filter p) → firstIdx a l < firstIdx b l := by
  intro l
  induction l with
  | nil =>
    intro a b ha
    simp at ha
  | cons x xs ih =>
    intro a b ha hb hlt
    by_cases hp : p x
    · rw [List.filter_cons_of_pos hp] at ha hb hlt
      by_cases hax : x = a
      · subst hax
        have hbx : x ≠ b := by
          intro e
          rw [← e, firstIdx_cons_self] at hlt
          omega
        rw [firstIdx_cons_self, firstIdx_cons_ne xs hbx]
        omega
      · by_cases hbx : x = b
        · subst hbx
          rw [firstIdx_cons_self] at hlt
          omega
        · have ha' : a ∈ xs.filter p :=
            (List.mem_cons.mp ha).elim (fun h => absurd h.symm hax) id
          have hb' : b ∈ xs.filter p :=
            (List.mem_cons.mp hb).elim (fun h => absurd h.symm hbx) id
          rw [firstIdx_cons_ne _ hax, firstIdx_cons_ne _ hbx] at hlt
          rw [firstIdx_cons_ne xs hax, firstIdx_cons_ne xs hbx]
          have := ih a b ha' hb' (by omega)
          omega
    · rw [List.filter_cons_of_neg hp] at ha hb hlt
      have hax : x ≠ a := by
        intro e
        exact hp (e ▸ List.of_mem_filter ha)
      have hbx : x ≠ b := by
        intro e
        exact hp (e ▸ List.of_mem_filter hb)
      rw [firstIdx_cons_ne xs hax, firstIdx_cons_ne xs hbx]
      have := ih a b ha hb hlt
      omega

theorem dedupFirstAux_pairwise {α : Type} [DecidableEq α] (l : List α) :
    ∀ seen : List α,
      List.Pairwise (fun a b => firstIdx a l < firstIdx b l) (dedupFirstAux seen l) := by
  induction l with
  | nil =>
    intro seen
    simp [dedupFirstAux]
  | cons x xs ih =>
    intro seen
    unfold dedupFirstAux
    by_cases hx : x ∈ seen
    · rw [if_pos hx]
      refine List.Pairwise.imp_of_mem ?_ (ih seen)
      intro a b ha hb hl
      have hna : x ≠ a := fun e => ((dedupFirstAux_mem xs seen a).mp ha).2 (e ▸ hx)
      have hnb : x ≠ b := fun e => ((dedupFirstAux_mem xs seen b).mp hb).2 (e ▸ hx)
      rw [firstIdx_cons_ne xs hna, firstIdx_cons_ne xs hnb]
      omega
    · rw [if_neg hx]
      rw [List.pairwise_cons]
      constructor
      · intro b hb
        have hnb : x ≠ b := fun e =>
          ((dedupFirstAux_mem xs (x :: seen) b).mp hb).2 (e ▸ List.mem_cons_self x seen)
        rw [firstIdx_cons_self, firstIdx_cons_ne xs hnb]
        omega
      · refine List.Pairwise.imp_of_mem ?_ (ih (x :: seen))
        intro a b ha hb hl
        have hna : x ≠ a := fun e =>
          ((dedupFirstAux_mem xs (x :: seen) a).mp ha).2 (e ▸ List.mem_cons_self x seen)
        have hnb : x ≠ b := fun e =>
          ((dedupFirstAux_mem xs (x :: seen) b).mp hb).2 (e ▸ List.mem_cons_self x seen)
        rw [firstIdx_cons_ne xs hna, firstIdx_cons_ne xs hnb]
        omega

theorem pandasUnique_spec (l : List PyValue) :
    (pandasUnique l).Nodup ∧
    (∀ v, v ∈ pandasUnique l ↔ v ∈ l ∧ pyIsNull v = false) ∧
    List.Sublist (pandasUnique l) l ∧
    List.Pairwise (fun a b => firstIdx a l < firstIdx b l) (pandasUnique l) := by
  unfold pandasUnique dedupFirst
  refine ⟨dedupFirstAux_nodup _ [], ?_, ?_, ?_⟩
  · intro v
    rw [dedupFirstAux_mem]
    simp [List.mem_filter]
  · exact (dedupFirstAux_sublist _ []).trans (List.filter_sublist l)
  · refine List.Pairwise.imp_of_mem ?_ (dedupFirstAux_pairwise (l.filter (fun v => !pyIsNull v)) [])
    intro a b ha hb hl
    have ha' := ((dedupFirstAux_mem _ [] a).mp ha).1
    have hb' := ((dedupFirstAux_mem _ [] b).mp hb).1
    exact firstIdx_filter_lt _ l a b ha' hb' hl

/-- Claim C6: the unique-values query on an existing column returns the
distinct non-null column values in first-occurrence order — no nulls, no
duplicates, a sublist of the column (original relative order), pairwise
increasing first-occurrence positions — and the values are the native
column values, not re-coerced. -/
theorem c6_unique_values (st : CSVTool) (df : DataFrame) (prompt : String) (col : String)
    (hdf : st.df = some df)
    (hcls : classify ((pyStrip prompt.data).map pyLowerChar) = Recognized.agg Kind.unique col)
    (hcol : col ∈ df.cols) :
    simple st prompt = Except.ok (Result.values (pandasUnique (getCol df col))) ∧
    (pandasUnique (getCol df col)).Nodup ∧
    (∀ v, v ∈ pandasUnique (getCol df col) ↔ v ∈ getCol df col ∧ pyIsNull v = false) ∧
    List.Sublist (pandasUnique (getCol df col)) (getCol df col) ∧
    List.Pairwise (fun a b => firstIdx a (getCol df col) < firstIdx b (getCol df col))
      (pandasUnique (getCol df col)) := by
  have hs := pandasUnique_spec (getCol df col)
  refine ⟨?_, hs.1, hs.2.1, hs.2.2.1, hs.2.2.2⟩
  simp only [simple, hdf, hcls]
  rw [if_pos hcol]

/-- Concrete store of the unique-values witness: duplicates and a
null. -/
def dfC : DataFrame :=
  ⟨["city"], [[PyValue.str "a"], [PyValue.null], [PyValue.str "b"], [PyValue.str "a"]]⟩

/-- Store holding `dfC`. -/
def stC : CSVTool := ⟨some dfC, "c.csv"⟩

theorem c6_unique_values_witness :
    simple stC "unique values of city"
      = Except.ok (Result.values [PyValue.str "a", PyValue.str "b"]) := by
  have h := c6_unique_values stC dfC "unique values of city" "city" rfl (by decide) (by decide)
  exact h.1.trans (by decide)

theorem astypeFloat_error_typeError :
    ∀ (v : PyValue) (e : PyErr), astypeFloat v = Except.error e → ∃ m, e = PyErr.typeError m := by
  intro v e h
  cases v with
  | int n => simp [astypeFloat] at h
  | float f => simp [astypeFloat] at h
  | bool b => simp [astypeFloat] at h
  | null => simp [astypeFloat] at h
  | str s =>
    rcases hf : pyFloatOfString s with _ | f <;> simp [astypeFloat, hf] at h
    exact ⟨_, h.symm⟩

theorem mapME_error_of_mem {α β : Type} (f : α → Except PyErr β) :
    ∀ l : List α, (∃ v ∈ l, ∃ e, f v = Except.error e) →
      ∃ e, mapME f l = Except.error e ∧ ∃ v ∈ l, f v = Except.error e := by
  intro l
  induction l with
  | nil =>
    rintro ⟨v, hv, _⟩
    simp at hv
  | cons x xs ih =>
    rintro ⟨v, hv, e, hfv⟩
    rcases hfx : f x with ex | y
    · exact ⟨ex, by simp [mapME, hfx], x, List.mem_cons_self x xs, hfx⟩
    · have hvx : v ∈ xs := by
        rcases List.mem_cons.mp hv with h | h
        · rw [h, hfx] at hfv
          exact absurd hfv (by simp)
        · exact h
      obtain ⟨e2, hm2, v2, hv2, hf2⟩ := ih ⟨v, hvx, e, hfv⟩
      exact ⟨e2, by simp [mapME, hfx, hm2], v2, List.mem_cons_of_mem _ hv2, hf2⟩

/-- Claim C4: when a mean or sum aggregate hits a column with an entry
the float cast rejects, the cast fails loudly and the TypeError
propagates out of `simple` instead of the entry being skipped. -/
theorem c4_aggregate_cast_typeError (st : CSVTool) (df : DataFrame) (prompt : String)
    (col : String) (k : Kind)
    (hdf : st.df = some df)
    (hcls : classify ((pyStrip prompt.data).map pyLowerChar) = Recognized.agg k col)
    (hk : k = Kind.avg ∨ k = Kind.sum)
    (hcol : col ∈ df.cols)
    (hbad : ∃ v ∈ getCol df col, ∃ e, astypeFloat v = Except.error e) :
    ∃ m, simple st prompt = Except.error (PyErr.typeError m) := by
  obtain ⟨e, hm, v, hv, hfv⟩ := mapME_error_of_mem astypeFloat (getCol df col) hbad
  obtain ⟨m, rfl⟩ := astypeFloat_error_typeError v e hfv
  refine ⟨m, ?_⟩
  rcases hk with rfl | rfl
  · simp only [simple, hdf, hcls]
    rw [if_pos hcol]
    unfold astypeCol
    rw [hm]
    rfl
  · simp only [simple, hdf, hcls]
    rw [if_pos hcol]
    unfold astypeCol
    rw [hm]
    rfl

theorem c4_aggregate_cast_typeError_witness :
    ∃ m, simple stA "mean of city" = Except.error (PyErr.typeError m) :=
  c4_aggregate_cast_typeError stA dfA "mean of city" "city" Kind.avg rfl (by decide)
    (Or.inl rfl) (by decide)
    ⟨PyValue.str "a", by decide,
      PyErr.typeError ("could not convert string to float: " ++ "a"), by decide⟩

/-- Read a boolean out of a fallible comparison: a failed comparison
counts as not-selected (only used to state which rows a successful
filter selected). -/
def exceptBool {ε : Type} : Except ε Bool → Bool
  | Except.ok b => b
  | Except.error _ => false

theorem exceptBool_true {ε : Type} (x : Except ε Bool) (h : exceptBool x = true) :
    x = Except.ok true := by
  cases x with
  | ok b => cases b
            · simp [exceptBool] at h
            · rfl
  | error e => simp [exceptBool] at h

theorem mapME_map_eq {α β γ : Type} (g : α → β) (f : β → Except PyErr γ) :
    ∀ l : List α, mapME f (l.map g) = mapME (fun a => f (g a)) l := by
  intro l
  induction l with
  | nil => rfl
  | cons x xs ih =>
    simp only [List.map_cons, mapME, ih]

theorem zip_mask_filter {α : Type} (f : α → Except PyErr Bool) :
    ∀ (l : List α) (m : List Bool), mapME f l = Except.ok m →
      ((l.zip m).filter (fun rm => rm.2)).map (fun rm => rm.1)
        = l.filter (fun a => exceptBool (f a)) := by
  intro l
  induction l with
  | nil =>
    intro m h
    simp only [mapME] at h
    cases h
    simp
  | cons x xs ih =>
    intro m h
    simp only [mapME] at h
    rcases hfx : f x with e | b <;> rw [hfx] at h
    · exact Except.noConfusion h
    · rcases hxs : mapME f xs with e2 | ms <;> rw [hxs] at h
      · exact Except.noConfusion h
      · cases h
        have hex : exceptBool (f x) = b := by
          rw [hfx]
          rfl
        rw [List.zip_cons_cons, List.filter_cons, List.filter_cons, hex]
        cases b
        · simp only [Bool.false_eq_true, if_false]
          exact ih ms hxs
        · simp only [if_true, List.map_cons]
          rw [ih ms hxs]

/-- Claim C3: when a filter query names an existing column and `simple`
returns successfully, the result is a table of at most N rows, every
returned row satisfies the comparison of its cell against the coerced
value, and the table is exactly the first N matching rows of the dataset
in original row order. -/
theorem c3_filter_query (st : CSVTool) (df : DataFrame)
    (prompt col op val : String) (topn : Nat) (r : Result)
    (hdf : st.df = some df)
    (hcls : classify ((pyStrip prompt.data).map pyLowerChar) = Recognized.filter col op val topn)
    (hcol : col ∈ df.cols)
    (hr : simple st prompt = Except.ok r) :
    ∃ res, r = Result.table res ∧ res.length ≤ topn ∧
      (∀ row ∈ res,
        applyOp op (row.getD (firstIdx col df.cols) PyValue.null) (_coerce_value val)
          = Except.ok true) ∧
      res = (df.rows.filter (fun row =>
        exceptBool (applyOp op (row.getD (firstIdx col df.cols) PyValue.null)
          (_coerce_value val)))).take topn := by
  simp only [simple, hdf, hcls] at hr
  rw [if_pos hcol] at hr
  rcases hm : mapME (fun cell => applyOp op cell (_coerce_value val)) (getCol df col)
    with e | mask <;> rw [hm] at hr
  · exact Except.noConfusion hr
  · have hmask : mapME (fun row => applyOp op (row.getD (firstIdx col df.cols) PyValue.null)
        (_coerce_value val)) df.rows = Except.ok mask :=
      (mapME_map_eq (fun row : List PyValue => row.getD (firstIdx col df.cols) PyValue.null)
        (fun cell => applyOp op cell (_coerce_value val)) df.rows).symm.trans hm
    have hzf : ((df.rows.zip mask).filter (fun rm => rm.2)).map (fun rm => rm.1)
        = df.rows.filter (fun row =>
            exceptBool (applyOp op (row.getD (firstIdx col df.cols) PyValue.null)
              (_coerce_value val))) :=
      zip_mask_filter _ df.rows mask hmask
    refine ⟨_, (Except.ok.inj hr).symm, ?_, ?_, ?_⟩
    · exact List.length_take_le _ _
    · intro row hrow
      have h1 := List.mem_of_mem_take hrow
      rw [hzf] at h1
      exact exceptBool_true _ ((List.mem_filter.mp h1).2)
    · rw [hzf]

theorem c3_filter_query_witness :
    ∃ res, (Result.table [[PyValue.int 20, PyValue.str "b"]] : Result) = Result.table res
      ∧ res.length ≤ 1
      ∧ (∀ row ∈ res,
          applyOp ">" (row.getD (firstIdx "price" dfA.cols) PyValue.null) (_coerce_value "15")
            = Except.ok true)
      ∧ res = (dfA.rows.filter (fun row =>
          exceptBool (applyOp ">" (row.getD (firstIdx "price" dfA.cols) PyValue.null)
            (_coerce_value "15")))).take 1 :=
  c3_filter_query stA dfA "filter price > 15 and show top 1" "price" ">" "15" 1
    (Result.table [[PyValue.int 20, PyValue.str "b"]]) rfl (by decide) (by decide)
    (by with_unfolding_all decide)

/-- Spec-side shape 1 (section 4.3 step 1): the filter pattern, highest
priority. -/
def filterShape (p : List Char) : Option Recognized :=
  (matchFilter p).map (fun r =>
    Recognized.filter (String.mk (pyStrip r.1)) r.2.1 r.2.2.1 r.2.2.2)

/-- Spec-side shape 2: `average of <column>` or `mean of <column>`, the
mean aggregate. -/
def meanShape (p : List Char) : Option Recognized :=
  match matchCapAll "average of ".data p with
  | some c => some (Recognized.agg Kind.avg (String.mk (pyStrip c)))
  | none => (matchCapAll "mean of ".data p).map
      (fun c => Recognized.agg Kind.avg (String.mk (pyStrip c)))

/-- Spec-side shape 3: `sum of <column>`. -/
def sumShape (p : List Char) : Option Recognized :=
  (matchCapAll "sum of ".data p).map (fun c => Recognized.agg Kind.sum (String.mk (pyStrip c)))

/-- Spec-side shape 4: `max of <column>`. -/
def maxShape (p : List Char) : Option Recognized :=
  (matchCapAll "max of ".data p).map (fun c => Recognized.agg Kind.max (String.mk (pyStrip c)))

/-- Spec-side shape 5: `min of <column>`. -/
def minShape (p : List Char) : Option Recognized :=
  (matchCapAll "min of ".data p).map (fun c => Recognized.agg Kind.min (String.mk (pyStrip c)))

/-- Spec-side shape 6: the argument-less `count rows`. -/
def countShape (p : List Char) : Option Recognized :=
  if p = "count rows".data then some Recognized.count_rows else none

/-- Spec-side shape 7: `unique values of <column>`. -/
def uniqueShape (p : List Char) : Option Recognized :=
  (matchCapAll "unique values of ".data p).map
    (fun c => Recognized.agg Kind.unique (String.mk (pyStrip c)))

/-- The spec's priority list (section 4.3): filter-shape first, then the
aggregation and unique shapes in fixed order; first match wins. -/
def specShapes : List (List Char → Option Recognized) :=
  [filterShape, meanShape, sumShape, maxShape, minShape, countShape, uniqueShape]

/-- The classification of the Pattern Matcher as the spec words it: trim
the prompt, lowercase it (case-insensitive matching), and take the first
shape of the priority list that matches the entire input. -/
def specClassify (prompt : String) : Recognized :=
  ((specShapes.findSome? (fun m => m ((pyStrip prompt.data).map pyLowerChar)))).getD
    Recognized.unrecognized

theorem classify_eq_spec (p : List Char) :
    classify p = (specShapes.findSome? (fun m => m p)).getD Recognized.unrecognized := by
  unfold classify specShapes
  rcases hm : matchFilter p with _ | ⟨c, o, v, n⟩
  · simp only [List.findSome?_cons, filterShape, hm, Option.map_none']
    rcases h1 : matchCapAll "average of ".data p with _ | c1
    · rcases h2 : matchCapAll "mean of ".data p with _ | c2
      · rcases h3 : matchCapAll "sum of ".data p with _ | c3
        · rcases h4 : matchCapAll "max of ".data p with _ | c4
          · rcases h5 : matchCapAll "min of ".data p with _ | c5
            · by_cases h6 : p = "count rows".data
              · subst h6
                decide
              · rcases h7 : matchCapAll "unique values of ".data p with _ | c7 <;>
                  simp [SIMPLE_PATTERNS, List.findSome?_cons, runSPat, meanShape, sumShape,
                    maxShape, minShape, countShape, uniqueShape, h1, h2, h3, h4, h5, h6, h7]
            · simp [SIMPLE_PATTERNS, List.findSome?_cons, runSPat, meanShape, sumShape,
                maxShape, minShape, h1, h2, h3, h4, h5]
          · simp [SIMPLE_PATTERNS, List.findSome?_cons, runSPat, meanShape, sumShape,
              maxShape, h1, h2, h3, h4]
        · simp [SIMPLE_PATTERNS, List.findSome?_cons, runSPat, meanShape, sumShape, h1, h2, h3]
      · simp [SIMPLE_PATTERNS, List.findSome?_cons, runSPat, meanShape, h1, h2]
    · simp [SIMPLE_PATTERNS, List.findSome?_cons, runSPat, meanShape, h1]
  · simp [List.findSome?_cons, filterShape, hm]

theorem matchPrefixL_append :
    ∀ (pre l r : List Char), matchPrefixL pre l = some r → l = pre ++ r := by
  intro pre
  induction pre with
  | nil =>
    intro l r h
    cases Option.some.inj h
    rfl
  | cons pc ps ih =>
    intro l r h
    cases l with
    | nil => exact Option.noConfusion h
    | cons c cs =>
      unfold matchPrefixL at h
      by_cases hc : c = pc
      · rw [if_pos hc] at h
        rw [List.cons_append, ← ih cs r h, hc]
      · rw [if_neg hc] at h
        exact Option.noConfusion h

theorem matchCapAll_spec (pre p c : List Char) (h : matchCapAll pre p = some c) :
    p = pre ++ c ∧ c ≠ [] ∧ c.all isClassChar := by
  unfold matchCapAll at h
  rcases hm : matchPrefixL pre p with _ | rest <;> rw [hm] at h
  · exact Option.noConfusion h
  · replace h : (if rest ≠ [] ∧ rest.all isClassChar then some rest else none) = some c := h
    by_cases hc : rest ≠ [] ∧ rest.all isClassChar
    · rw [if_pos hc] at h
      have hrc : rest = c := Option.some.inj h
      subst hrc
      exact ⟨matchPrefixL_append pre p rest hm, hc.1, hc.2⟩
    · rw [if_neg hc] at h
      exact Option.noConfusion h

theorem all_takeWhile (q : Char → Bool) (l : List Char) : (l.takeWhile q).all q = true := by
  rw [List.all_eq_true]
  intro c hc
  exact List.mem_takeWhile_imp hc

theorem matchShowTop_spec (rem : List Char) (n : Nat) (h : matchShowTop rem = some n) :
    ∃ sp3 sp4 ds, rem = sp3 ++ ("and show top".data ++ (sp4 ++ ds))
      ∧ sp3.all isSpaceChar ∧ sp4.all isSpaceChar ∧ ds ≠ [] ∧ ds.all isPyDigit
      ∧ n = natOfDigits ds := by
  unfold matchShowTop at h
  rcases hm : matchPrefixL "and show top".data (rem.dropWhile isSpaceChar) with _ | r <;>
    rw [hm] at h
  · exact Option.noConfusion h
  · unfold digitsVal at h
    replace h : (if r.dropWhile isSpaceChar ≠ [] ∧ (r.dropWhile isSpaceChar).all isPyDigit
        then some (natOfDigits (r.dropWhile isSpaceChar)) else none) = some n := h
    by_cases hd : r.dropWhile isSpaceChar ≠ [] ∧ (r.dropWhile isSpaceChar).all isPyDigit
    · rw [if_pos hd] at h
      refine ⟨rem.takeWhile isSpaceChar, r.takeWhile isSpaceChar, r.dropWhile isSpaceChar,
        ?_, all_takeWhile _ _, all_takeWhile _ _, hd.1, hd.2, (Option.some.inj h).symm⟩
      rw [List.takeWhile_append_dropWhile isSpaceChar r]
      rw [← matchPrefixL_append _ _ _ hm, List.takeWhile_append_dropWhile isSpaceChar rem]
    · rw [if_neg hd] at h
      exact Option.noConfusion h

theorem filterValSearch_spec (run tail : List Char) :
    ∀ (k : Nat) (val : List Char) (n : Nat), filterValSearch run tail k = some (val, n) →
      ∃ j, 1 ≤ j ∧ j ≤ k ∧ val = run.take j ∧ matchShowTop (run.drop j ++ tail) = some n := by
  intro k
  induction k with
  | zero =>
    intro val n h
    exact Option.noConfusion h
  | succ k ih =>
    intro val n h
    unfold filterValSearch at h
    rcases hm : matchShowTop (run.drop (k + 1) ++ tail) with _ | n2 <;> rw [hm] at h
    · obtain ⟨j, h1, h2, h3, h4⟩ := ih val n h
      exact ⟨j, h1, Nat.le_succ_of_le h2, h3, h4⟩
    · obtain ⟨hv, hn⟩ := Prod.mk.injEq .. ▸ Option.some.inj h
      exact ⟨k + 1, by omega, Nat.le_refl _, hv.symm, hn ▸ hm⟩

theorem matchFilterRest_spec (r1s : List Char) (o : String) (val : List Char) (n : Nat)
    (h : matchFilterRest r1s = some (o, val, n)) :
    o ∈ OPS ∧ ∃ r2, r1s = o.data ++ r2
      ∧ matchFilterVal (r2.dropWhile isSpaceChar) = some (val, n) := by
  obtain ⟨a, ha, hfa⟩ := List.exists_of_findSome?_eq_some h
  rcases hma : matchPrefixL a.data r1s with _ | r2 <;> rw [hma] at hfa
  · exact Option.noConfusion hfa
  · replace hfa : (match matchFilterVal (r2.dropWhile isSpaceChar) with
        | none => none
        | some (val, n) => some (a, val, n)) = some (o, val, n) := hfa
    rcases hmv : matchFilterVal (r2.dropWhile isSpaceChar) with _ | ⟨v2, n2⟩ <;> rw [hmv] at hfa
    · exact Option.noConfusion hfa
    · have hinj := Option.some.inj hfa
      simp only [Prod.mk.injEq] at hinj
      obtain ⟨h1, h2, h3⟩ := hinj
      subst h1
      subst h2
      subst h3
      exact ⟨ha, r2, matchPrefixL_append _ _ _ hma, hmv⟩

theorem matchFilterVal_spec (r2s v2 : List Char) (n : Nat)
    (h : matchFilterVal r2s = some (v2, n)) :
    ∃ sp3 sp4 ds, r2s = v2 ++ (sp3 ++ ("and show top".data ++ (sp4 ++ ds)))
      ∧ v2 ≠ [] ∧ v2.all (fun c => !isSpaceChar c)
      ∧ sp3.all isSpaceChar ∧ sp4.all isSpaceChar ∧ ds ≠ [] ∧ ds.all isPyDigit
      ∧ n = natOfDigits ds := by
  unfold matchFilterVal at h
  obtain ⟨j, hj1, hj2, hv, hshow⟩ := filterValSearch_spec _ _ _ v2 n h
  obtain ⟨sp3, sp4, ds, hrem, hsp3, hsp4, hds1, hds2, hn⟩ := matchShowTop_spec _ _ hshow
  refine ⟨sp3, sp4, ds, ?_, ?_, ?_, hsp3, hsp4, hds1, hds2, hn⟩
  · conv_lhs => rw [← List.takeWhile_append_dropWhile (fun c => !isSpaceChar c) r2s]
    rw [← List.take_append_drop j (r2s.takeWhile (fun c => !isSpaceChar c)), ← hv,
      List.append_assoc, hrem]
  · rw [hv]
    intro hemp
    have := congrArg List.length hemp
    simp only [List.length_take, List.length_nil] at this
    omega
  · rw [hv, List.all_eq_true]
    intro c hc
    have hc2 : c ∈ r2s.takeWhile (fun c => !isSpaceChar c) := List.mem_of_mem_take hc
    have hc3 := List.mem_takeWhile_imp hc2
    exact hc3

theorem matchFilter_spec (p colRaw : List Char) (op valS : String) (n : Nat)
    (h : matchFilter p = some (colRaw, op, valS, n)) :
    ∃ sp1 sp2 vRaw sp3 sp4 ds,
      p = "filter ".data ++ (colRaw ++ (sp1 ++ (op.data ++ (sp2 ++ (vRaw ++ (sp3
          ++ ("and show top".data ++ (sp4 ++ ds))))))))
      ∧ colRaw ≠ [] ∧ colRaw.all isClassChar
      ∧ sp1.all isSpaceChar ∧ sp2.all isSpaceChar
      ∧ vRaw ≠ [] ∧ vRaw.all (fun c => !isSpaceChar c)
      ∧ sp3.all isSpaceChar ∧ sp4.all isSpaceChar
      ∧ ds ≠ [] ∧ ds.all isPyDigit
      ∧ op ∈ OPS ∧ valS = String.mk vRaw ∧ n = natOfDigits ds := by
  unfold matchFilter at h
  rcases h0 : matchPrefixL "filter ".data p with _ | rest0 <;> rw [h0] at h
  · exact Option.noConfusion h
  · replace h : (if rest0.takeWhile isClassChar = [] then none
      else
        match matchFilterRest ((rest0.dropWhile isClassChar).dropWhile isSpaceChar) with
        | none => none
        | some (o, val, n) => some (rest0.takeWhile isClassChar, o, String.mk val, n))
        = some (colRaw, op, valS, n) := h
    by_cases hcr : rest0.takeWhile isClassChar = []
    · rw [if_pos hcr] at h
      exact Option.noConfusion h
    · rw [if_neg hcr] at h
      rcases hop : matchFilterRest ((rest0.dropWhile isClassChar).dropWhile isSpaceChar)
        with _ | ⟨o, v2, n2⟩ <;> rw [hop] at h
      · exact Option.noConfusion h
      · have hinj := Option.some.inj h
        simp only [Prod.mk.injEq] at hinj
        obtain ⟨hc1, ho1, hv1, hn1⟩ := hinj
        subst hc1
        subst ho1
        subst hv1
        subst hn1
        obtain ⟨hops, r2, hr1s, hval⟩ := matchFilterRest_spec _ _ _ _ hop
        obtain ⟨sp3, sp4, ds, hr2s, hv2ne, hv2all, hsp3, hsp4, hds1, hds2, hn⟩ :=
          matchFilterVal_spec _ _ _ hval
        refine ⟨(rest0.dropWhile isClassChar).takeWhile isSpaceChar,
          r2.takeWhile isSpaceChar, v2, sp3, sp4, ds, ?_, hcr,
          all_takeWhile _ _, all_takeWhile _ _, all_takeWhile _ _,
          hv2ne, hv2all, hsp3, hsp4, hds1, hds2, hops, rfl, hn⟩
        rw [matchPrefixL_append _ _ _ h0]
        conv_lhs => rw [← List.takeWhile_append_dropWhile isClassChar rest0,
          ← List.takeWhile_append_dropWhile isSpaceChar (rest0.dropWhile isClassChar), hr1s,
          ← List.takeWhile_append_dropWhile isSpaceChar r2, hr2s]

theorem classify_agg_inv (p : List Char) (k : Kind) (c : String)
    (h : classify p = Recognized.agg k c) :
    ∃ pre raw, (SPat.cap pre, k) ∈ SIMPLE_PATTERNS ∧ p = pre ++ raw ∧ raw ≠ []
      ∧ raw.all isClassChar ∧ c = String.mk (pyStrip raw) := by
  unfold classify at h
  rcases hm : matchFilter p with _ | r <;> rw [hm] at h
  · rcases hf : SIMPLE_PATTERNS.findSome? (fun pk => (runSPat pk.1 p).map (fun cc => (pk.2, cc)))
      with _ | ⟨k2, craw⟩ <;> rw [hf] at h
    · exact Recognized.noConfusion h
    · replace h : (if k2 = Kind.count_rows then Recognized.count_rows
          else Recognized.agg k2 (String.mk (pyStrip craw))) = Recognized.agg k c := h
      by_cases hk : k2 = Kind.count_rows
      · rw [if_pos hk] at h
        exact Recognized.noConfusion h
      · rw [if_neg hk] at h
        obtain ⟨hk2, hc⟩ := Recognized.agg.inj h
        obtain ⟨⟨pat, kk⟩, hpk, hrun⟩ := List.exists_of_findSome?_eq_some hf
        rcases hro : runSPat pat p with _ | cr <;> rw [hro] at hrun
        · exact Option.noConfusion hrun
        · have hpair := Option.some.inj hrun
          simp only [Prod.mk.injEq] at hpair
          obtain ⟨hkk, hcr⟩ := hpair
          cases pat with
          | cap pre =>
            obtain ⟨hp, hne, hall⟩ := matchCapAll_spec pre p cr hro
            refine ⟨pre, cr, ?_, hp, hne, hall, ?_⟩
            · rw [← hk2, ← hkk]
              exact hpk
            · rw [← hc, hcr]
          | lit l =>
            exfalso
            apply hk
            rw [← hkk]
            simp [SIMPLE_PATTERNS] at hpk
            exact hpk.2
  · exact Recognized.noConfusion h

theorem classify_count_inv (p : List Char) (h : classify p = Recognized.count_rows) :
    p = "count rows".data := by
  unfold classify at h
  rcases hm : matchFilter p with _ | r <;> rw [hm] at h
  · rcases hf : SIMPLE_PATTERNS.findSome? (fun pk => (runSPat pk.1 p).map (fun cc => (pk.2, cc)))
      with _ | ⟨k2, craw⟩ <;> rw [hf] at h
    · exact Recognized.noConfusion h
    · replace h : (if k2 = Kind.count_rows then Recognized.count_rows
          else Recognized.agg k2 (String.mk (pyStrip craw))) = Recognized.count_rows := h
      by_cases hk : k2 = Kind.count_rows
      · obtain ⟨⟨pat, kk⟩, hpk, hrun⟩ := List.exists_of_findSome?_eq_some hf
        rcases hro : runSPat pat p with _ | cr <;> rw [hro] at hrun
        · exact Option.noConfusion hrun
        · have hpair := Option.some.inj hrun
          simp only [Prod.mk.injEq] at hpair
          obtain ⟨hkk, hcr⟩ := hpair
          cases pat with
          | cap pre =>
            exfalso
            rw [hkk, hk] at hpk
            simp [SIMPLE_PATTERNS] at hpk
          | lit l =>
            have hl : l = "count rows".data := by
              simp [SIMPLE_PATTERNS] at hpk
              exact hpk.1
            replace hro : (if p = l then some [] else none) = some cr := hro
            by_cases hpl : p = l
            · rw [hpl, hl]
            · rw [if_neg hpl] at hro
              exact Option.noConfusion hro
      · rw [if_neg hk] at h
        exact Recognized.noConfusion h
  · exact Recognized.noConfusion h

theorem classify_filter_inv (p : List Char) (col op val : String) (n : Nat)
    (h : classify p = Recognized.filter col op val n) :
    ∃ colRaw, matchFilter p = some (colRaw, op, val, n) ∧ col = String.mk (pyStrip colRaw) := by
  unfold classify at h
  rcases hm : matchFilter p with _ | ⟨cr, o, v, nn⟩ <;> rw [hm] at h
  · rcases hf : SIMPLE_PATTERNS.findSome? (fun pk => (runSPat pk.1 p).map (fun cc => (pk.2, cc)))
      with _ | ⟨k2, craw⟩ <;> rw [hf] at h
    · exact Recognized.noConfusion h
    · replace h : (if k2 = Kind.count_rows then Recognized.count_rows
          else Recognized.agg k2 (String.mk (pyStrip craw))) = Recognized.filter col op val n := h
      by_cases hk : k2 = Kind.count_rows
      · rw [if_pos hk] at h
        exact Recognized.noConfusion h
      · rw [if_neg hk] at h
        exact Recognized.noConfusion h
  · obtain ⟨h1, h2, h3, h4⟩ := Recognized.filter.inj h
    subst h2
    subst h3
    subst h4
    exact ⟨cr, rfl, h1.symm⟩

/-- Claim C2: the classification `simple` performs on the lowercased,
stripped prompt equals the spec's priority algorithm (filter-shape
first, then the aggregation and unique shapes in the fixed order of
`SIMPLE_PATTERNS`, first match wins); matching is case-insensitive (an
upper-cased prompt classifies identically); and every successful match
consumes the entire trimmed input — an aggregation match decomposes the
whole input into pattern prefix plus capture, `count rows` equals the
whole input, and a filter match decomposes the whole input into the
pattern's seven regex pieces. -/
theorem c2_pattern_priority (prompt : String) :
    classify ((pyStrip prompt.data).map pyLowerChar) = specClassify prompt ∧
    specClassify prompt = specClassify (String.mk (prompt.data.map pyUpperChar)) ∧
    (∀ k c, classify ((pyStrip prompt.data).map pyLowerChar) = Recognized.agg k c →
      ∃ pre raw, (SPat.cap pre, k) ∈ SIMPLE_PATTERNS
        ∧ (pyStrip prompt.data).map pyLowerChar = pre ++ raw
        ∧ raw ≠ [] ∧ raw.all isClassChar ∧ c = String.mk (pyStrip raw)) ∧
    (classify ((pyStrip prompt.data).map pyLowerChar) = Recognized.count_rows →
      (pyStrip prompt.data).map pyLowerChar = "count rows".data) ∧
    (∀ col op val n, classify ((pyStrip prompt.data).map pyLowerChar)
        = Recognized.filter col op val n →
      ∃ colRaw sp1 sp2 vRaw sp3 sp4 ds,
        (pyStrip prompt.data).map pyLowerChar
          = "filter ".data ++ (colRaw ++ (sp1 ++ (op.data ++ (sp2 ++ (vRaw ++ (sp3
              ++ ("and show top".data ++ (sp4 ++ ds))))))))
        ∧ colRaw ≠ [] ∧ colRaw.all isClassChar ∧ sp1.all isSpaceChar ∧ sp2.all isSpaceChar
        ∧ vRaw ≠ [] ∧ vRaw.all (fun ch => !isSpaceChar ch) ∧ sp3.all isSpaceChar
        ∧ sp4.all isSpaceChar ∧ ds ≠ [] ∧ ds.all isPyDigit ∧ op ∈ OPS
        ∧ col = String.mk (pyStrip colRaw) ∧ val = String.mk vRaw
        ∧ n = natOfDigits ds) := by
  refine ⟨?_, ?_, ?_, ?_, ?_⟩
  · rw [classify_eq_spec]
    rfl
  · unfold specClassify
    have he : (pyStrip (String.mk (prompt.data.map pyUpperChar)).data).map pyLowerChar
        = (pyStrip prompt.data).map pyLowerChar := by
      show (pyStrip (prompt.data.map pyUpperChar)).map pyLowerChar = _
      rw [pyStrip_map_upper, map_lower_map_upper]
    rw [he]
  · intro k c h
    exact classify_agg_inv _ k c h
  · intro h
    exact classify_count_inv _ h
  · intro col op val n h
    obtain ⟨colRaw, hm, hcol⟩ := classify_filter_inv _ col op val n h
    obtain ⟨sp1, sp2, vRaw, sp3, sp4, ds, heq, hc1, hc2, hs1, hs2, hvn, hva, hs3, hs4,
      hd1, hd2, hop, hval, hn⟩ := matchFilter_spec _ colRaw op val n hm
    exact ⟨colRaw, sp1, sp2, vRaw, sp3, sp4, ds, heq, hc1, hc2, hs1, hs2, hvn, hva,
      hs3, hs4, hd1, hd2, hop, hcol, hval, hn⟩

theorem c2_pattern_priority_witness :
    (classify ((pyStrip "Mean of Price".data).map pyLowerChar) = specClassify "Mean of Price") ∧
    (specClassify "Mean of Price"
      = specClassify (String.mk ("Mean of Price".data.map pyUpperChar))) ∧
    (∃ pre raw, (SPat.cap pre, Kind.avg) ∈ SIMPLE_PATTERNS
      ∧ (pyStrip "Mean of Price".data).map pyLowerChar = pre ++ raw
      ∧ raw ≠ [] ∧ raw.all isClassChar ∧ "price" = String.mk (pyStrip raw)) := by
  obtain ⟨h1, h2, h3, h4, h5⟩ := c2_pattern_priority "Mean of Price"
  exact ⟨h1, h2, h3 Kind.avg "price" (by decide)⟩

theorem mem_pyStrip {c : Char} {l : List Char} (h : c ∈ pyStrip l) : c ∈ l := by
  unfold pyStrip at h
  rw [List.mem_reverse] at h
  have h2 := (List.dropWhile_sublist isSpaceChar).subset h
  rw [List.mem_reverse] at h2
  exact (List.dropWhile_sublist isSpaceChar).subset h2

theorem map_self_of_fixed {f : Char → Char} :
    ∀ l : List Char, (∀ c ∈ l, f c = c) → l.map f = l := by
  intro l
  induction l with
  | nil =>
    intro
    rfl
  | cons x xs ih =>
    intro h
    rw [List.map_cons, h x (List.mem_cons_self x xs),
      ih (fun c hc => h c (List.mem_cons_of_mem _ hc))]

/-- The column name a recognized query refers to, when it has one. -/
def extractedCol : Recognized → Option String
  | Recognized.filter col _ _ _ => some col
  | Recognized.agg _ col => some col
  | _ => none

theorem classify_col_lower (q : List Char) (r : Recognized) (col : String)
    (hr : classify (q.map pyLowerChar) = r) (hc : extractedCol r = some col) :
    col.data.map pyLowerChar = col.data := by
  have hfix : ∀ c ∈ q.map pyLowerChar, pyLowerChar c = c := by
    intro c hcm
    obtain ⟨c0, _, rfl⟩ := List.mem_map.mp hcm
    exact pyLowerChar_idem c0
  cases r with
  | filter c o v n =>
    have hcc : c = col := Option.some.inj hc
    subst hcc
    obtain ⟨colRaw, hm, hceq⟩ := classify_filter_inv _ _ _ _ _ hr
    obtain ⟨sp1, sp2, vRaw, sp3, sp4, ds, heq, _⟩ := matchFilter_spec _ _ _ _ _ hm
    rw [hceq]
    show (pyStrip colRaw).map pyLowerChar = pyStrip colRaw
    apply map_self_of_fixed
    intro ch hch
    refine hfix ch ?_
    rw [heq]
    exact List.mem_append.mpr (Or.inr (List.mem_append.mpr (Or.inl (mem_pyStrip hch))))
  | agg k c =>
    have hcc : c = col := Option.some.inj hc
    subst hcc
    obtain ⟨pre, raw, _, heq, _, _, hceq⟩ := classify_agg_inv _ _ _ hr
    rw [hceq]
    show (pyStrip raw).map pyLowerChar = pyStrip raw
    apply map_self_of_fixed
    intro ch hch
    refine hfix ch ?_
    rw [heq]
    exact List.mem_append.mpr (Or.inr (mem_pyStrip hch))
  | count_rows => exact Option.noConfusion hc
  | unrecognized => exact Option.noConfusion hc

/-- Counterexample store for C10: both a capitalized `Price` column and
its all-lowercase twin `price`. -/
def dfD : DataFrame :=
  ⟨["Price", "price"], [[PyValue.int 1, PyValue.int 2], [PyValue.int 3, PyValue.int 4]]⟩

/-- Store holding `dfD`. -/
def stD : CSVTool := ⟨some dfD, "d.csv"⟩

/-- Counterexample to claim C10 as stated: `dfD` has the column `Price`
(it contains an uppercase letter), the query mean of Price refers to it
by its exact name, yet `simple` returns the mean of the lowercase twin
column `price` — a float result, not the Column not found message the
claim demands for every such query. -/
theorem c10_counterexample :
    simple stD "mean of Price" = Except.ok (Result.float (PyFloat.finite 3)) ∧
    (Except.ok (Result.float (PyFloat.finite 3)) : Except PyErr Result)
      ≠ Except.ok (Result.message (colNotFound "price")) := by
  constructor
  · with_unfolding_all decide
  · with_unfolding_all decide

/-- Claim C10 (amended): because `simple` lowercases the whole prompt
before matching and column lookup, a query referring to a column whose
stored name contains an uppercase letter yields the Column not found
message for the lowercased name — provided the dataset does not also
contain that all-lowercase spelling as a separate column (in that case
the lowercase twin is silently used instead, see the counterexample) —
and every column name the natural-language shapes can extract is
already all-lowercase, so only columns with entirely lowercase stored
names are reachable. -/
theorem c10_lowercase_columns (st : CSVTool) (df : DataFrame) (name prompt : String)
    (col : String)
    (hdf : st.df = some df)
    (hname : name ∈ df.cols)
    (hup : name.data.map pyLowerChar ≠ name.data)
    (hlow : String.mk (name.data.map pyLowerChar) ∉ df.cols)
    (hext : extractedCol (classify ((pyStrip prompt.data).map pyLowerChar)) = some col)
    (hcol : col.data = name.data.map pyLowerChar) :
    simple st prompt = Except.ok (Result.message (colNotFound col)) ∧
    (∀ (prompt2 : String) (col2 : String),
      extractedCol (classify ((pyStrip prompt2.data).map pyLowerChar)) = some col2 →
      col2.data.map pyLowerChar = col2.data) := by
  constructor
  · have hcs : col = String.mk (name.data.map pyLowerChar) := by
      rw [← hcol]
    have hnm : col ∉ df.cols := by
      rw [hcs]
      exact hlow
    cases hcls : classify ((pyStrip prompt.data).map pyLowerChar) with
    | filter c o v n =>
      rw [hcls] at hext
      have hcc : c = col := Option.some.inj hext
      subst hcc
      simp only [simple, hdf, hcls]
      rw [if_neg hnm]
    | agg k c =>
      rw [hcls] at hext
      have hcc : c = col := Option.some.inj hext
      subst hcc
      simp only [simple, hdf, hcls]
      rw [if_neg hnm]
    | count_rows =>
      rw [hcls] at hext
      exact Option.noConfusion hext
    | unrecognized =>
      rw [hcls] at hext
      exact Option.noConfusion hext
  · intro prompt2 col2 hext2
    exact classify_col_lower (pyStrip prompt2.data) _ col2 rfl hext2

/-- Witness store for the amended C10: only the capitalized column. -/
def dfE : DataFrame := ⟨["Price"], [[PyValue.int 1]]⟩

/-- Store holding `dfE`. -/
def stE : CSVTool := ⟨some dfE, "e.csv"⟩

theorem c10_lowercase_columns_witness :
    simple stE "mean of Price" = Except.ok (Result.message (colNotFound "price")) :=
  (c10_lowercase_columns stE dfE "Price" "mean of Price" "price" rfl (by decide) (by decide)
    (by decide) (by decide) (by decide)).1
